import Mathlib

/-!
Verification of the pdfdk-desktop watch-and-pipeline core.

This file shallowly embeds the Rust sources of the repository:
  * `src-tauri/src/api/mod.rs`      — the PDF.dk API client (upload
    classification, job-status polling, status normalization),
  * `src-tauri/src/watcher/mod.rs`  — the folder watcher (notification
    filtering, pending-file debouncing, folder resolution, output paths,
    add/remove of watched folders),
  * `src-tauri/src/config/mod.rs`   — tool configuration (`enable_tool`),
  * `src-tauri/src/processor/mod.rs` — the local `Job` record and its
    phase transitions.

Modelling conventions:
  * Filesystem paths are modelled as their list of normal components
    (an absolute path `/a/b/c.pdf` is `⟨["a", "b", "c.pdf"]⟩`).
  * Machine integers (`u8`, `u32`, `u64`) are modelled as `Nat`, `i32`
    as `Int`; none of the embedded code paths can overflow them.
  * HTTP traffic is modelled by the observable parts of a response:
    its status code, its body text, and the result of the `serde_json`
    parse (an `Except` whose error is the serde error text).
  * `tokio::time::sleep` suspensions are modelled as consuming one poll
    attempt; real-time durations are kept as named constants.
  * The filesystem is modelled as the list of existing directories;
    `std::fs::create_dir_all` appends the missing ancestors.
  * The `notify` crate's watcher is modelled by its documented
    interface: a set of (path, recursive-mode) watches, where
    `unwatch` on an unknown path returns a watch-not-found error.
-/

set_option autoImplicit false

/-! ## Path model (std::path::Path / PathBuf) -/

/-- A filesystem path, modelled as the list of its normal components.
The empty list stands for the filesystem root. -/
structure FsPath where
  components : List String
deriving DecidableEq, Repr

/-- Rust `Path::file_name`: the last (normal) component. -/
def FsPath.fileName (p : FsPath) : Option String :=
  p.components.getLast?

/-- Rust `std::path`'s `split_file_at_dot` on a file name: the portion
before the final `.` and the portion after it; the extension is absent
when there is no embedded dot, when the name starts with its only dot,
or for the special name `..`. -/
def splitFileAtDot (name : String) : String × Option String :=
  if name = ".." then (name, none)
  else
    let cs := name.toList
    let afterRev := cs.reverse.takeWhile (fun c => c ≠ '.')
    if afterRev.length = cs.length then (name, none)
    else
      let before := cs.take (cs.length - afterRev.length - 1)
      if before = [] then (name, none)
      else (⟨before⟩, some ⟨afterRev.reverse⟩)

/-- Rust `Path::extension`. -/
def FsPath.extension (p : FsPath) : Option String :=
  p.fileName.bind (fun n => (splitFileAtDot n).2)

/-- Rust `Path::file_stem` (combined with `.and_then(to_str)`, total on
this model's valid-UTF-8 strings). -/
def FsPath.fileStem (p : FsPath) : Option String :=
  p.fileName.map (fun n => (splitFileAtDot n).1)

/-- Rust `Path::parent`: drop the last component; the root has no
parent. -/
def FsPath.parent (p : FsPath) : Option FsPath :=
  match p.components with
  | [] => none
  | _ => some ⟨p.components.dropLast⟩

/-- Rust `Path::join` with a single plain component. -/
def FsPath.join (p : FsPath) (s : String) : FsPath :=
  ⟨p.components ++ [s]⟩

/-- Rust `Path::starts_with`: component-wise prefix test. -/
def FsPath.starts_with (p q : FsPath) : Bool :=
  q.components.isPrefixOf p.components

/-- Rust `path.as_os_str().len()` for an absolute path: one byte for
the leading slash of the root, and for each component a separating
slash (the first component reuses the root slash) plus the component
itself. -/
def FsPath.osStrLen (p : FsPath) : Nat :=
  match p.components with
  | [] => 1
  | cs => cs.foldl (fun a c => a + 1 + c.length) 0

/-- Splitting a character list on `/`, keeping empty pieces. -/
def splitSlashAux (cur : List Char) : List Char → List String
  | [] => [⟨cur.reverse⟩]
  | c :: rest =>
      if c = '/' then (⟨cur.reverse⟩ : String) :: splitSlashAux [] rest
      else splitSlashAux (c :: cur) rest

/-- Rust `PathBuf::from` on an absolute path string: split on `/` and
drop the empty pieces produced by the leading slash. -/
def FsPath.ofString (s : String) : FsPath :=
  ⟨(splitSlashAux [] s.toList).filter (fun c => c ≠ "")⟩

/-! ## String helpers (Rust std string operations) -/

/-- Rust `str::eq_ignore_ascii_case` (Lean's `Char.toLower` lowers
exactly the ASCII uppercase range, matching Rust's ASCII semantics). -/
def eqIgnoreAsciiCase (a b : String) : Bool :=
  a.toLower == b.toLower

/-- Helper for `containsSubstr`: does `needle` occur as a prefix of any
suffix of the second list? -/
def containsSubstrAux (needle : List Char) : List Char → Bool
  | [] => needle.isEmpty
  | c :: rest => needle.isPrefixOf (c :: rest) || containsSubstrAux needle rest

/-- Rust `str::contains` with a string pattern: substring test. -/
def containsSubstr (hay needle : String) : Bool :=
  containsSubstrAux needle.toList hay.toList

/-! ## API client (src-tauri/src/api/mod.rs) -/

namespace Api

/-- Constant `POLL_INTERVAL` (seconds): the fixed sleep between two
poll attempts. -/
def POLL_INTERVAL_SECONDS : Nat := 2

/-- Constant `MAX_POLL_ATTEMPTS` ("10 minutes max"). -/
def MAX_POLL_ATTEMPTS : Nat := 300

/-- Error enum `ApiError`. The transport (`reqwest`) and local I/O
error payloads are abstracted to their message text. -/
inductive ApiError where
  | Network (msg : String)
  | Io (msg : String)
  | JobFailed (msg : String)
  | Timeout
  | ServerError (msg : String)
  | Unauthorized
  | JobLimitExceeded
  | FileTooLarge (limitMb : Int)
deriving DecidableEq, Repr

/-- Struct `UploadData` (the `#[serde(flatten)] extra` passthrough
object is modelled as a key-value list). -/
structure UploadData where
  job_uuid : String
  status : String
  extra : List (String × String)
deriving DecidableEq, Repr

/-- Struct `UploadResponse`. -/
structure UploadResponse where
  success : Bool
  message : Option String
  data : Option UploadData
  error : Option String
deriving DecidableEq, Repr

/-- Struct `JobStatusData` (the `extra` passthrough object is modelled
as a key-value list). -/
structure JobStatusData where
  uuid : String
  status : String
  progress : Option Nat
  output_path : Option String
  output_filename : Option String
  error : Option String
  extra : List (String × String)
deriving DecidableEq, Repr

/-- Struct `JobStatusResponse`. -/
structure JobStatusResponse where
  success : Bool
  message : Option String
  data : Option JobStatusData
  error : Option String
deriving DecidableEq, Repr

/-- Enum `JobStatus` (the server-side, normalized job status). -/
inductive JobStatus where
  | Queued
  | Processing
  | Completed
  | Failed
  | Unknown (raw : String)
deriving DecidableEq, Repr

/-- `impl From<&str> for JobStatus`: case-insensitive normalization of
the server-reported textual status. -/
def JobStatus.ofString (s : String) : JobStatus :=
  match s.toLower with
  | "queued" => JobStatus.Queued
  | "processing" => JobStatus.Processing
  | "completed" => JobStatus.Completed
  | "done" => JobStatus.Completed
  | "failed" => JobStatus.Failed
  | "error" => JobStatus.Failed
  | other => JobStatus.Unknown other

/-- The observable parts of one HTTP response to the client: the
status code, the body text, and the outcome of the `serde_json` parse
of that body (the error case carries the serde error text). -/
structure PollResponse where
  httpStatus : Nat
  bodyText : String
  parsed : Except String JobStatusResponse
deriving Repr

/-- One iteration of `poll_job`'s loop body after the HTTP exchange
(src-tauri/src/api/mod.rs lines 262-302): `Except.ok none` means the
loop sleeps `POLL_INTERVAL` and retries, `Except.ok (some job)` means
the loop returns the job data, and `Except.error e` aborts the loop. -/
def pollOnce (r : PollResponse) : Except ApiError (Option JobStatusData) :=
  if r.httpStatus = 401 then Except.error ApiError.Unauthorized
  else
    match r.parsed with
    | Except.error e =>
        Except.error (ApiError.ServerError
          ("Failed to parse poll response: " ++ e ++ " - Body: " ++ r.bodyText))
    | Except.ok job_response =>
        if job_response.success = false then
          let msg := (job_response.error.or job_response.message).getD ""
          if containsSubstr msg.toLower "unauthorized" then
            Except.error ApiError.Unauthorized
          else
            Except.error (ApiError.ServerError msg)
        else
          match job_response.data with
          | some job =>
              match JobStatus.ofString job.status with
              | JobStatus.Completed => Except.ok (some job)
              | JobStatus.Failed =>
                  Except.error (ApiError.JobFailed
                    (job.error.getD "Unknown error"))
              | _ => Except.ok none
          | none => Except.ok none

/-- The recursion of `poll_job`: `fuel` is the number of attempts still
allowed (the source counts `attempts` up and returns `Timeout` once
`attempts > MAX_POLL_ATTEMPTS`); `i` indexes the next response of the
server's response sequence. -/
def poll_job_go (responses : Nat → PollResponse) (i : Nat) : Nat → Except ApiError JobStatusData
  | 0 => Except.error ApiError.Timeout
  | fuel + 1 =>
      match pollOnce (responses i) with
      | Except.error e => Except.error e
      | Except.ok (some job) => Except.ok job
      | Except.ok none => poll_job_go responses (i + 1) fuel

/-- `PdfDkClient::poll_job`, as a function of the sequence of responses
the server would give to the successive poll requests. -/
def poll_job (responses : Nat → PollResponse) : Except ApiError JobStatusData :=
  poll_job_go responses 0 MAX_POLL_ATTEMPTS

/-- `PdfDkClient::process_file`, from the point where the HTTP response
of the upload arrives (src-tauri/src/api/mod.rs lines 189-237): status
classification, body parse, payload check, and job-handle extraction.
`reqwest`'s `status.is_success()` is the 200-299 range; the Rust
`Display` of a status code also prints its canonical reason phrase,
abstracted here to the bare number. -/
def classify_upload_response (status : Nat) (bodyText : String)
    (parsed : Except String UploadResponse) : Except ApiError String :=
  if status = 401 then Except.error ApiError.Unauthorized
  else if status = 429 then Except.error ApiError.JobLimitExceeded
  else if status = 413 then
    -- The source reads the body text here intending to extract the
    -- plan's limit, then unconditionally reports the 100 MB default.
    Except.error (ApiError.FileTooLarge 100)
  else if ¬(200 ≤ status ∧ status ≤ 299) then
    Except.error (ApiError.ServerError
      ("Server returned " ++ toString status ++ ": " ++ bodyText))
  else
    match parsed with
    | Except.error e =>
        Except.error (ApiError.ServerError
          ("Failed to parse response: " ++ e ++ " - Body: " ++ bodyText))
    | Except.ok upload_response =>
        if upload_response.success = false then
          Except.error (ApiError.ServerError
            ((upload_response.error.or upload_response.message).getD
              "Unknown error"))
        else
          match upload_response.data with
          | some d => Except.ok d.job_uuid
          | none =>
              Except.error (ApiError.ServerError
                "No job UUID returned from server")

end Api

/-! ## Job records (src-tauri/src/processor/mod.rs) -/

namespace Processor

/-- Enum `JobStatus` (the local job's lifecycle status). -/
inductive JobStatus where
  | Pending
  | Uploading
  | Processing
  | Downloading
  | Completed
  | Failed
deriving DecidableEq, Repr

/-- Struct `Job`. Timestamps are Unix seconds. -/
structure Job where
  id : String
  tool_id : String
  input_file : String
  output_file : Option String
  status : JobStatus
  progress : Option Nat
  error : Option String
  created_at : Nat
  completed_at : Option Nat
deriving DecidableEq, Repr

/-- `Job::new`. The generated UUID and `SystemTime::now()` are
parameters of the model. -/
def Job.new (id tool_id input_file : String) (now : Nat) : Job :=
  { id := id
    tool_id := tool_id
    input_file := input_file
    output_file := none
    status := JobStatus.Pending
    progress := none
    error := none
    created_at := now
    completed_at := none }

/-- `Job::set_uploading`. -/
def Job.set_uploading (j : Job) : Job :=
  { j with status := JobStatus.Uploading, progress := some 10 }

/-- `Job::set_processing`. -/
def Job.set_processing (j : Job) : Job :=
  { j with status := JobStatus.Processing, progress := some 50 }

/-- `Job::set_downloading`. -/
def Job.set_downloading (j : Job) : Job :=
  { j with status := JobStatus.Downloading, progress := some 80 }

/-- `Job::set_completed`. `now` models `SystemTime::now()`. -/
def Job.set_completed (j : Job) (output_file : String) (now : Nat) : Job :=
  { j with status := JobStatus.Completed
           progress := some 100
           output_file := some output_file
           completed_at := some now }

/-- `Job::set_failed`. `now` models `SystemTime::now()`. -/
def Job.set_failed (j : Job) (error : String) (now : Nat) : Job :=
  { j with status := JobStatus.Failed
           error := some error
           completed_at := some now }

end Processor

/-! ## Configuration (src-tauri/src/config/mod.rs) -/

namespace Config

/-- Enum `OutputMode`. -/
inductive OutputMode where
  | SameFolder
  | Subfolder
  | Custom (path : String)
deriving DecidableEq, Repr

/-- Struct `ToolConfig` (the `serde_json::Value` option object is
modelled as a key-value list). -/
structure ToolConfig where
  id : String
  enabled : Bool
  folder_path : Option String
  output_mode : OutputMode
  options : List (String × String)
deriving DecidableEq, Repr

/-- Struct `AppConfig`, restricted to the fields the embedded
operations touch (`general` and `auth` are never read by them). -/
structure AppConfig where
  version : Nat
  tools : List ToolConfig
deriving DecidableEq, Repr

/-- Enum `ConfigError` (I/O and JSON payloads abstracted). -/
inductive ConfigError where
  | Io
  | Json
  | NoConfigDir
  | ToolNotFound (id : String)
deriving DecidableEq, Repr

/-- The identifiers of the `ToolDefinition`s returned by
`get_available_tools` (the display metadata is irrelevant here). -/
def available_tool_ids : List String :=
  ["compress", "outline", "pdf-to-word", "pdf-to-excel", "pdf-to-jpg",
   "rotate", "unlock", "ocr", "bleed"]

/-- `Rust create_dir_all`: the directory together with every missing
ancestor comes into existence. The filesystem is the list of existing
directories. -/
def create_dir_all (fs : List FsPath) (p : FsPath) : List FsPath :=
  fs ++ ((List.range (p.components.length + 1)).map
    (fun n => (⟨p.components.take n⟩ : FsPath))).filter (fun q => q ∉ fs)

/-- The in-place update of `AppConfig::enable_tool`'s
`iter_mut().find(...)` branch: enable and repoint the first tool with
the given id. -/
def enable_tool_update (tool_id folder_path : String) : List ToolConfig → List ToolConfig
  | [] => []
  | t :: ts =>
      if t.id = tool_id then
        { t with enabled := true, folder_path := some folder_path } :: ts
      else
        t :: enable_tool_update tool_id folder_path ts

/-- `AppConfig::enable_tool`: validates the tool id, creates the folder
and its `Processed` subfolder when missing, and updates or appends the
tool's configuration entry. Returns the updated filesystem and
configuration. -/
def enable_tool (fs : List FsPath) (config : AppConfig) (tool_id folder_path : String) :
    Except ConfigError (List FsPath × AppConfig) :=
  if !(available_tool_ids.any (fun t => t = tool_id)) then
    Except.error (ConfigError.ToolNotFound tool_id)
  else
    let path := FsPath.ofString folder_path
    let fs1 := if path ∈ fs then fs else create_dir_all fs path
    let processed_path := path.join "Processed"
    let fs2 := if processed_path ∈ fs1 then fs1 else create_dir_all fs1 processed_path
    let tools :=
      if config.tools.any (fun t => t.id = tool_id) then
        enable_tool_update tool_id folder_path config.tools
      else
        config.tools ++
          [{ id := tool_id
             enabled := true
             folder_path := some folder_path
             output_mode := OutputMode.Subfolder
             options := [] }]
    Except.ok (fs2, { config with tools := tools })

end Config

/-! ## Folder watcher (src-tauri/src/watcher/mod.rs) -/

namespace Watcher

open Config

/-- The `notify` crate's `RecursiveMode`. -/
inductive RecursiveMode where
  | Recursive
  | NonRecursive
deriving DecidableEq, Repr

/-- The `notify` crate's errors, restricted to the one the embedded
operations can produce. -/
inductive NotifyError where
  | WatchNotFound
deriving DecidableEq, Repr

/-- Enum `WatcherError`. -/
inductive WatcherError where
  | Notify (e : NotifyError)
  | Io
  | ChannelError
deriving DecidableEq, Repr

/-- The `notify` crate's event kinds, with the payloads of
`Create`/`Modify` abstracted away (the source matches `Create(_)` and
`Modify(_)` wildcard-style). -/
inductive EventKind where
  | any
  | access
  | create
  | modify
  | remove
  | other
deriving DecidableEq, Repr

/-- The `notify` crate's `Event`: a kind and the affected paths. -/
structure NotifyEvent where
  kind : EventKind
  paths : List FsPath
deriving DecidableEq, Repr

/-- Struct `FileEvent`: a stabilized, resolved ready file. -/
structure FileEvent where
  path : FsPath
  tool_id : String
  tool_config : ToolConfig
deriving DecidableEq, Repr

/-- The mutable parts of `FolderWatcher`: the OS-level watches held by
the `notify` watcher, and the registry of watched folders. Both maps
are modelled as association lists with at most one entry per key. -/
structure FolderWatcherState where
  watches : List (FsPath × RecursiveMode)
  watched_folders : List (FsPath × ToolConfig)
deriving DecidableEq, Repr

/-- Modelled from the notify crate's documented watcher interface:
`watch` registers (or re-registers) a path with the given mode. -/
def watch (watches : List (FsPath × RecursiveMode)) (p : FsPath) (mode : RecursiveMode) :
    List (FsPath × RecursiveMode) :=
  (p, mode) :: watches.filter (fun e => e.1 ≠ p)

/-- Modelled from the notify crate's documented watcher interface:
`unwatch` removes the watch for the path, and returns a
watch-not-found error when no watch for that exact path exists. -/
def unwatch (watches : List (FsPath × RecursiveMode)) (p : FsPath) :
    Except NotifyError (List (FsPath × RecursiveMode)) :=
  if watches.any (fun e => e.1 = p) then
    Except.ok (watches.filter (fun e => e.1 ≠ p))
  else
    Except.error NotifyError.WatchNotFound

/-- `FolderWatcher::add_folder`. Returns the updated filesystem (list
of existing directories) and watcher state. -/
def add_folder (fs : List FsPath) (st : FolderWatcherState) (tool_config : ToolConfig) :
    Except WatcherError (List FsPath × FolderWatcherState) :=
  match tool_config.folder_path with
  | none => Except.ok (fs, st)
  | some path =>
      let folder_path := FsPath.ofString path
      if tool_config.enabled = false then Except.ok (fs, st)
      else
        let fs1 := if folder_path ∈ fs then fs else create_dir_all fs folder_path
        let watches1 := watch st.watches folder_path RecursiveMode.NonRecursive
        let folders1 :=
          (folder_path, tool_config) :: st.watched_folders.filter (fun e => e.1 ≠ folder_path)
        Except.ok (fs1, { watches := watches1, watched_folders := folders1 })

/-- `FolderWatcher::remove_folder`: the `unwatch` failure is propagated
by `?` before the registry entry is touched. -/
def remove_folder (st : FolderWatcherState) (folder_path : FsPath) :
    Except WatcherError FolderWatcherState :=
  match unwatch st.watches folder_path with
  | Except.error e => Except.error (WatcherError.Notify e)
  | Except.ok w =>
      Except.ok
        { watches := w
          watched_folders := st.watched_folders.filter (fun e => e.1 ≠ folder_path) }

/-- `FolderWatcher::is_pdf_file`. -/
def is_pdf_file (path : FsPath) : Bool :=
  (path.extension.map (fun e => eqIgnoreAsciiCase e "pdf")).getD false

/-- `FolderWatcher::is_in_processed_folder`. -/
def is_in_processed_folder (path : FsPath) : Bool :=
  path.components.any (fun c =>
    eqIgnoreAsciiCase c "processed" || eqIgnoreAsciiCase c "originals")

/-- The per-path body of `handle_notify_event`'s loop: filter the path
and, when accepted, (re)insert it into the pending map with the
current instant. -/
def notifyStep (now : Nat) (pending : List (FsPath × Nat)) (path : FsPath) :
    List (FsPath × Nat) :=
  let file_name := path.fileName.getD "unknown"
  if !is_pdf_file path then pending
  else if is_in_processed_folder path then pending
  else if file_name.startsWith "." || file_name.endsWith ".tmp"
       || file_name.endsWith ".part" then pending
  else (path, now) :: pending.filter (fun e => e.1 ≠ path)

/-- `FolderWatcher::handle_notify_event`. `now` models
`Instant::now()`; the pending map is an association list with at most
one entry per path. -/
def handle_notify_event (event : NotifyEvent) (now : Nat)
    (pending_files : List (FsPath × Nat)) : List (FsPath × Nat) :=
  match event.kind with
  | EventKind.create => event.paths.foldl (notifyStep now) pending_files
  | EventKind.modify => event.paths.foldl (notifyStep now) pending_files
  | _ => pending_files

/-- The loop body of `find_watched_folder`: keep the entry whose
folder path is a prefix of the file path and strictly longer (by
OS-string length) than the best match so far. -/
def findFolderStep (file_path : FsPath)
    (best : Option (FsPath × ToolConfig) × Nat) (entry : FsPath × ToolConfig) :
    Option (FsPath × ToolConfig) × Nat :=
  if file_path.starts_with entry.1 then
    if best.2 < entry.1.osStrLen then (some entry, entry.1.osStrLen) else best
  else best

/-- `FolderWatcher::find_watched_folder`: the fold over the registry
keeping the longest (by OS-string length) matching folder path. -/
def find_watched_folder (file_path : FsPath)
    (watched_folders : List (FsPath × ToolConfig)) : Option (FsPath × ToolConfig) :=
  (watched_folders.foldl (findFolderStep file_path)
    ((none : Option (FsPath × ToolConfig)), 0)).1

/-- The per-ready-path body of `check_pending_files`: drop the path
from the pending map and emit a `FileEvent` exactly when a watched
folder resolves for it. -/
def pendingStep (watched_folders : List (FsPath × ToolConfig))
    (acc : List (FsPath × Nat) × List FileEvent) (path : FsPath) :
    List (FsPath × Nat) × List FileEvent :=
  let pending1 := acc.1.filter (fun e => e.1 ≠ path)
  match find_watched_folder path watched_folders with
  | some fc => (pending1, acc.2 ++ [⟨path, fc.2.id, fc.2⟩])
  | none => (pending1, acc.2)

/-- `FolderWatcher::check_pending_files`. `now` models
`Instant::now()`, `readable` the `exists` plus open-for-reading probe.
Returns the remaining pending map and the emitted ready events in
emission order. -/
def check_pending_files (now debounce : Nat) (readable : FsPath → Bool)
    (watched_folders : List (FsPath × ToolConfig))
    (pending_files : List (FsPath × Nat)) :
    List (FsPath × Nat) × List FileEvent :=
  let ready_files :=
    (pending_files.filter (fun e => debounce ≤ now - e.2 && readable e.1)).map
      (fun e => e.1)
  ready_files.foldl (pendingStep watched_folders) (pending_files, [])

/-- `get_output_path` (src-tauri/src/watcher/mod.rs lines 356-384). -/
def get_output_path (input_path : FsPath) (config : ToolConfig) : FsPath :=
  let file_stem := input_path.fileStem.getD "output"
  let extension :=
    if config.id = "pdf-to-word" then "docx"
    else if config.id = "pdf-to-excel" then "xlsx"
    else if config.id = "pdf-to-jpg" then "zip"
    else "pdf"
  let output_filename := file_stem ++ "_" ++ config.id ++ "." ++ extension
  match config.output_mode with
  | OutputMode.SameFolder =>
      (input_path.parent.getD ⟨["."]⟩).join output_filename
  | OutputMode.Subfolder =>
      ((input_path.parent.getD ⟨["."]⟩).join "Processed").join output_filename
  | OutputMode.Custom custom_path =>
      (FsPath.ofString custom_path).join output_filename

end Watcher


/-! ## Claim theorems -/

/-- C9: `Job::set_failed` sets the status to `Failed`, the error to
the given message and `completed_at` to the current time, and leaves
`progress`, `output_file`, `id`, `tool_id`, `input_file` and
`created_at` unchanged; in particular a job that failed right after
entering the processing phase still carries that phase's progress
value (50). -/
theorem set_failed_frame (j : Processor.Job) (e : String) (now : Nat) :
    (j.set_failed e now).status = Processor.JobStatus.Failed
  ∧ (j.set_failed e now).error = some e
  ∧ (j.set_failed e now).completed_at = some now
  ∧ (j.set_failed e now).progress = j.progress
  ∧ (j.set_failed e now).output_file = j.output_file
  ∧ (j.set_failed e now).id = j.id
  ∧ (j.set_failed e now).tool_id = j.tool_id
  ∧ (j.set_failed e now).input_file = j.input_file
  ∧ (j.set_failed e now).created_at = j.created_at
  ∧ (j.set_processing.set_failed e now).progress = some 50 :=
  ⟨rfl, rfl, rfl, rfl, rfl, rfl, rfl, rfl, rfl, rfl⟩

/-- C10: on HTTP 413 the upload classification always reports
`FileTooLarge 100`, whatever the response body says. -/
theorem file_too_large_constant_limit (bodyText : String)
    (parsed : Except String Api.UploadResponse) :
    Api.classify_upload_response 413 bodyText parsed =
      Except.error (Api.ApiError.FileTooLarge 100) := rfl

/-- C4: the upload call's outcome is classified by the HTTP response
exactly as: `Unauthorized` on 401, `JobLimitExceeded` on 429,
`FileTooLarge` on 413, `ServerError` on any other non-success status
or an unparsable body, `ServerError` carrying the payload's
error-or-message text when the payload reports `success: false`, and
the job handle on a successful payload that carries one. -/
theorem process_file_error_classification (status : Nat) (bodyText : String)
    (parsed : Except String Api.UploadResponse) :
    (status = 401 →
      Api.classify_upload_response status bodyText parsed =
        Except.error Api.ApiError.Unauthorized)
  ∧ (status = 429 →
      Api.classify_upload_response status bodyText parsed =
        Except.error Api.ApiError.JobLimitExceeded)
  ∧ (status = 413 →
      Api.classify_upload_response status bodyText parsed =
        Except.error (Api.ApiError.FileTooLarge 100))
  ∧ (¬(200 ≤ status ∧ status ≤ 299) → status ≠ 401 → status ≠ 429 → status ≠ 413 →
      ∃ msg, Api.classify_upload_response status bodyText parsed =
        Except.error (Api.ApiError.ServerError msg))
  ∧ (∀ e, 200 ≤ status → status ≤ 299 → parsed = Except.error e →
      ∃ msg, Api.classify_upload_response status bodyText parsed =
        Except.error (Api.ApiError.ServerError msg))
  ∧ (∀ ur, 200 ≤ status → status ≤ 299 → parsed = Except.ok ur → ur.success = false →
      Api.classify_upload_response status bodyText parsed =
        Except.error (Api.ApiError.ServerError ((ur.error.or ur.message).getD "Unknown error")))
  ∧ (∀ ur d, 200 ≤ status → status ≤ 299 → parsed = Except.ok ur → ur.success = true →
      ur.data = some d →
      Api.classify_upload_response status bodyText parsed = Except.ok d.job_uuid) := by
  refine ⟨?_, ?_, ?_, ?_, ?_, ?_, ?_⟩
  · intro h; subst h; rfl
  · intro h; subst h; rfl
  · intro h; subst h; rfl
  · intro hns h401 h429 h413
    refine ⟨"Server returned " ++ toString status ++ ": " ++ bodyText, ?_⟩
    simp [Api.classify_upload_response, h401, h429, h413, hns]
  · intro e h1 h2 hparsed
    have h401 : status ≠ 401 := by omega
    have h429 : status ≠ 429 := by omega
    have h413 : status ≠ 413 := by omega
    refine ⟨"Failed to parse response: " ++ e ++ " - Body: " ++ bodyText, ?_⟩
    simp [Api.classify_upload_response, h401, h429, h413, h1, h2, hparsed]
  · intro ur h1 h2 hparsed hfail
    have h401 : status ≠ 401 := by omega
    have h429 : status ≠ 429 := by omega
    have h413 : status ≠ 413 := by omega
    simp [Api.classify_upload_response, h401, h429, h413, h1, h2, hparsed, hfail]
  · intro ur d h1 h2 hparsed hsucc hdata
    have h401 : status ≠ 401 := by omega
    have h429 : status ≠ 429 := by omega
    have h413 : status ≠ 413 := by omega
    simp [Api.classify_upload_response, h401, h429, h413, h1, h2, hparsed, hsucc, hdata]

/-- C4 witness: a 401 upload response is classified as `Unauthorized`. -/
theorem process_file_error_classification_witness :
    Api.classify_upload_response 401 "" (Except.error "eof") =
      Except.error Api.ApiError.Unauthorized :=
  (process_file_error_classification 401 "" (Except.error "eof")).1 rfl

/-- C6: within one poll, an HTTP 401 fails with `Unauthorized`
whatever the body holds; a parsed 200 payload reporting failure fails
with `Unauthorized` when its error-or-message text contains
"unauthorized" case-insensitively, and with `ServerError` carrying
that text otherwise. -/
theorem poll_unauthorized_classification (r : Api.PollResponse) :
    (r.httpStatus = 401 → Api.pollOnce r = Except.error Api.ApiError.Unauthorized)
  ∧ (∀ jr, r.httpStatus = 200 → r.parsed = Except.ok jr → jr.success = false →
      (containsSubstr ((jr.error.or jr.message).getD "").toLower "unauthorized" = true →
        Api.pollOnce r = Except.error Api.ApiError.Unauthorized)
    ∧ (containsSubstr ((jr.error.or jr.message).getD "").toLower "unauthorized" = false →
        Api.pollOnce r =
          Except.error (Api.ApiError.ServerError ((jr.error.or jr.message).getD "")))) := by
  constructor
  · intro h; simp [Api.pollOnce, h]
  · intro jr h200 hparsed hfail
    constructor <;> intro hc <;> simp [Api.pollOnce, h200, hparsed, hfail, hc]

/-- C6 witness: a 401 poll response with an unreadable body is
classified as `Unauthorized` without the body being consulted. -/
theorem poll_unauthorized_classification_witness :
    Api.pollOnce ⟨401, "garbage", Except.error "parse failure"⟩ =
      Except.error Api.ApiError.Unauthorized :=
  (poll_unauthorized_classification ⟨401, "garbage", Except.error "parse failure"⟩).1 rfl

/-- The tool-specific output extension as the spec words it:
`pdf-to-word` yields docx, `pdf-to-excel` xlsx, `pdf-to-jpg` zip, and
every other tool pdf. -/
def toolOutputExtension (id : String) : String :=
  if id = "pdf-to-word" then "docx"
  else if id = "pdf-to-excel" then "xlsx"
  else if id = "pdf-to-jpg" then "zip"
  else "pdf"

/-- C5: for an input path with a parent directory and a file stem, the
computed output path is stem + "_" + tool id + the tool-specific
extension, placed in the input's own directory (SameFolder), in the
input directory's `Processed` subfolder (Subfolder), or in the given
custom directory (Custom). -/
theorem get_output_path_spec (input : FsPath) (config : Config.ToolConfig)
    (d : FsPath) (stem : String)
    (hparent : input.parent = some d) (hstem : input.fileStem = some stem) :
    (config.output_mode = Config.OutputMode.SameFolder →
      Watcher.get_output_path input config =
        d.join (stem ++ "_" ++ config.id ++ "." ++ toolOutputExtension config.id))
  ∧ (config.output_mode = Config.OutputMode.Subfolder →
      Watcher.get_output_path input config =
        (d.join "Processed").join
          (stem ++ "_" ++ config.id ++ "." ++ toolOutputExtension config.id))
  ∧ (∀ c, config.output_mode = Config.OutputMode.Custom c →
      Watcher.get_output_path input config =
        (FsPath.ofString c).join
          (stem ++ "_" ++ config.id ++ "." ++ toolOutputExtension config.id)) := by
  refine ⟨?_, ?_, ?_⟩
  · intro hmode
    simp [Watcher.get_output_path, toolOutputExtension, hparent, hstem, hmode]
  · intro hmode
    simp [Watcher.get_output_path, toolOutputExtension, hparent, hstem, hmode]
  · intro c hmode
    simp [Watcher.get_output_path, toolOutputExtension, hparent, hstem, hmode]

/-- C5 witness: tool `pdf-to-word` on `/watch/report.pdf` in Subfolder
mode yields `/watch/Processed/report_pdf-to-word.docx`. -/
theorem get_output_path_spec_witness :
    Watcher.get_output_path ⟨["watch", "report.pdf"]⟩
      ⟨"pdf-to-word", true, some "/watch", Config.OutputMode.Subfolder, []⟩ =
      ⟨["watch", "Processed", "report_pdf-to-word.docx"]⟩ := by
  have h :=
    ((get_output_path_spec ⟨["watch", "report.pdf"]⟩
        ⟨"pdf-to-word", true, some "/watch", Config.OutputMode.Subfolder, []⟩
        ⟨["watch"]⟩ "report" rfl rfl).2.1) rfl
  simpa using h

/-- C7 counterexample: removing a folder that is neither watched nor
registered is not a successful no-op — the watcher's watch-not-found
error is propagated by `?`. -/
theorem remove_folder_unknown_errors :
    Watcher.remove_folder ⟨[], []⟩ ⟨["missing"]⟩ =
      Except.error (Watcher.WatcherError.Notify Watcher.NotifyError.WatchNotFound) := rfl

/-- C7 (amended): removing a folder whose OS-level watch is not active
returns the watcher's watch-not-found error and leaves the state
untouched; for a watched folder, remove unregisters the OS-level watch
and removes the registry entry, returning success. -/
theorem remove_folder_spec (st : Watcher.FolderWatcherState) (p : FsPath) :
    (st.watches.any (fun e => e.1 = p) = false →
      Watcher.remove_folder st p =
        Except.error (Watcher.WatcherError.Notify Watcher.NotifyError.WatchNotFound))
  ∧ (st.watches.any (fun e => e.1 = p) = true →
      Watcher.remove_folder st p =
        Except.ok ⟨st.watches.filter (fun e => e.1 ≠ p),
                   st.watched_folders.filter (fun e => e.1 ≠ p)⟩) := by
  constructor <;> intro h <;>
    simp [Watcher.remove_folder, Watcher.unwatch, h]

/-- C7 witness: removing the one watched and registered folder
unregisters its watch and drops its registry entry. -/
theorem remove_folder_spec_witness :
    Watcher.remove_folder
      ⟨[(⟨["w"]⟩, Watcher.RecursiveMode.NonRecursive)],
       [(⟨["w"]⟩, ⟨"compress", true, some "/w", Config.OutputMode.Subfolder, []⟩)]⟩
      ⟨["w"]⟩ = Except.ok ⟨[], []⟩ := by
  have h :=
    (remove_folder_spec
      ⟨[(⟨["w"]⟩, Watcher.RecursiveMode.NonRecursive)],
       [(⟨["w"]⟩, ⟨"compress", true, some "/w", Config.OutputMode.Subfolder, []⟩)]⟩
      ⟨["w"]⟩).2 (by decide)
  simpa using h

/-- A directory is in the filesystem after `create_dir_all` created
it. -/
theorem mem_create_dir_all_self (fs : List FsPath) (p : FsPath) :
    p ∈ Config.create_dir_all fs p := by
  by_cases h : p ∈ fs
  · exact List.mem_append_left _ h
  · refine List.mem_append_right _ ?_
    rw [List.mem_filter]
    refine ⟨?_, by simpa using h⟩
    rw [List.mem_map]
    exact ⟨p.components.length, by simp, by simp⟩

/-- `create_dir_all` keeps every existing directory. -/
theorem mem_create_dir_all_of_mem (fs : List FsPath) (p q : FsPath) (h : q ∈ fs) :
    q ∈ Config.create_dir_all fs p :=
  List.mem_append_left _ h

/-- A create-if-missing step leaves an existing directory in place. -/
theorem mem_ite_create (fs : List FsPath) (p q : FsPath) (h : q ∈ fs) :
    q ∈ (if p ∈ fs then fs else Config.create_dir_all fs p) := by
  by_cases hp : p ∈ fs
  · simpa [hp] using h
  · simpa [hp] using mem_create_dir_all_of_mem fs p q h

/-- After a create-if-missing step the directory exists. -/
theorem mem_ite_create_self (fs : List FsPath) (p : FsPath) :
    p ∈ (if p ∈ fs then fs else Config.create_dir_all fs p) := by
  by_cases hp : p ∈ fs
  · simp [hp]
  · simpa [hp] using mem_create_dir_all_self fs p

/-- C8 counterexample: `add_folder` on an enabled tool whose folder is
missing creates the folder but no `Processed` subfolder of it (that
subfolder is created by the configuration layer's `enable_tool`). -/
theorem add_folder_no_processed_subfolder :
    Watcher.add_folder [] ⟨[], []⟩
        ⟨"compress", true, some "/watch", Config.OutputMode.Subfolder, []⟩ =
      Except.ok ([⟨[]⟩, ⟨["watch"]⟩],
        ⟨[(⟨["watch"]⟩, Watcher.RecursiveMode.NonRecursive)],
         [(⟨["watch"]⟩, ⟨"compress", true, some "/watch", Config.OutputMode.Subfolder, []⟩)]⟩)
  ∧ (⟨["watch", "Processed"]⟩ : FsPath) ∉ ([⟨[]⟩, ⟨["watch"]⟩] : List FsPath) := by
  constructor
  · rfl
  · decide

/-- C8 (amended): `add_folder` returns success without registering
anything when the tool is disabled or has no configured folder;
otherwise it creates the configured folder when it is missing on disk
(but no `Processed` subfolder), registers a non-recursive OS-level
watch on it, and inserts or overwrites the registry entry for that
folder path. The `Processed` subfolder of the watch folder is created
by the configuration layer's `enable_tool`, together with the folder
itself, for every known tool id. -/
theorem add_folder_spec (fs : List FsPath) (st : Watcher.FolderWatcherState)
    (tc : Config.ToolConfig) (cfg : Config.AppConfig) (tool_id folder_path : String) :
    (tc.folder_path = none → Watcher.add_folder fs st tc = Except.ok (fs, st))
  ∧ (tc.enabled = false → Watcher.add_folder fs st tc = Except.ok (fs, st))
  ∧ (∀ path, tc.folder_path = some path → tc.enabled = true →
      ∃ fs1, Watcher.add_folder fs st tc =
          Except.ok (fs1,
            ⟨Watcher.watch st.watches (FsPath.ofString path) Watcher.RecursiveMode.NonRecursive,
             (FsPath.ofString path, tc) ::
               st.watched_folders.filter (fun e => e.1 ≠ FsPath.ofString path)⟩)
        ∧ FsPath.ofString path ∈ fs1
        ∧ (FsPath.ofString path ∈ fs → fs1 = fs))
  ∧ (tool_id ∈ Config.available_tool_ids →
      ∃ fs2 cfg2, Config.enable_tool fs cfg tool_id folder_path = Except.ok (fs2, cfg2)
        ∧ FsPath.ofString folder_path ∈ fs2
        ∧ (FsPath.ofString folder_path).join "Processed" ∈ fs2) := by
  refine ⟨?_, ?_, ?_, ?_⟩
  · intro h; simp [Watcher.add_folder, h]
  · intro h
    cases hfp : tc.folder_path with
    | none => simp [Watcher.add_folder, hfp]
    | some path => simp [Watcher.add_folder, hfp, h]
  · intro path hfp hen
    by_cases hmem : FsPath.ofString path ∈ fs
    · refine ⟨fs, ?_, hmem, fun _ => rfl⟩
      simp [Watcher.add_folder, hfp, hen, hmem, Watcher.watch]
    · refine ⟨Config.create_dir_all fs (FsPath.ofString path), ?_,
        mem_create_dir_all_self fs (FsPath.ofString path), fun h => absurd h hmem⟩
      simp [Watcher.add_folder, hfp, hen, hmem, Watcher.watch]
  · intro hknown
    have hany : Config.available_tool_ids.any (fun t => t = tool_id) = true := by
      rw [List.any_eq_true]
      exact ⟨tool_id, hknown, by simp⟩
    refine
      ⟨(let p := FsPath.ofString folder_path
        let fs1 := if p ∈ fs then fs else Config.create_dir_all fs p
        if p.join "Processed" ∈ fs1 then fs1
        else Config.create_dir_all fs1 (p.join "Processed")),
       { version := cfg.version
         tools :=
           if cfg.tools.any (fun t => t.id = tool_id) then
             Config.enable_tool_update tool_id folder_path cfg.tools
           else
             cfg.tools ++
               [{ id := tool_id
                  enabled := true
                  folder_path := some folder_path
                  output_mode := Config.OutputMode.Subfolder
                  options := [] }] },
       ?_, ?_, ?_⟩
    · simp [Config.enable_tool, hany]
    · exact mem_ite_create _ _ _ (mem_ite_create_self fs _)
    · exact mem_ite_create_self _ _

/-- C8 witness: enabling the known tool `compress` on the missing
folder `/watch` creates both `/watch` and `/watch/Processed`, while
`add_folder` for the same enabled tool registers the non-recursive
watch and the registry entry. -/
theorem add_folder_spec_witness :
    (∃ fs2 cfg2, Config.enable_tool [] ⟨1, []⟩ "compress" "/watch" = Except.ok (fs2, cfg2)
      ∧ FsPath.ofString "/watch" ∈ fs2
      ∧ (FsPath.ofString "/watch").join "Processed" ∈ fs2) :=
  (add_folder_spec [] ⟨[], []⟩
    ⟨"compress", true, some "/watch", Config.OutputMode.Subfolder, []⟩
    ⟨1, []⟩ "compress" "/watch").2.2.2 (by decide)

/-- One retrying poll consumes one attempt and moves to the next
response. -/
theorem poll_job_go_retry_step (responses : Nat → Api.PollResponse) (i fuel : Nat)
    (h : Api.pollOnce (responses i) = Except.ok none) :
    Api.poll_job_go responses i (fuel + 1) = Api.poll_job_go responses (i + 1) fuel := by
  simp [Api.poll_job_go, h]

/-- Skipping a block of retrying polls. -/
theorem poll_job_go_retries (responses : Nat → Api.PollResponse) :
    ∀ (k i fuel : Nat), k ≤ fuel →
      (∀ j, j < k → Api.pollOnce (responses (i + j)) = Except.ok none) →
      Api.poll_job_go responses i fuel = Api.poll_job_go responses (i + k) (fuel - k) := by
  intro k
  induction k with
  | zero => intro i fuel _ _; simp
  | succ k ih =>
      intro i fuel hk h
      obtain ⟨f, rfl⟩ : ∃ f, fuel = f + 1 := ⟨fuel - 1, by omega⟩
      have h0 : Api.pollOnce (responses i) = Except.ok none := by
        simpa using h 0 (Nat.succ_pos k)
      rw [poll_job_go_retry_step responses i f h0]
      have hrest : ∀ j, j < k → Api.pollOnce (responses (i + 1 + j)) = Except.ok none := by
        intro j hj
        have := h (j + 1) (by omega)
        simpa [show i + (j + 1) = i + 1 + j by omega] using this
      have := ih (i + 1) f (by omega) hrest
      simpa [show i + 1 + k = i + (k + 1) by omega, Nat.succ_sub_succ] using this

/-- When every allowed attempt retries, the loop times out. -/
theorem poll_job_go_all_retries (responses : Nat → Api.PollResponse) :
    ∀ (fuel i : Nat),
      (∀ j, j < fuel → Api.pollOnce (responses (i + j)) = Except.ok none) →
      Api.poll_job_go responses i fuel = Except.error Api.ApiError.Timeout := by
  intro fuel
  induction fuel with
  | zero => intro i _; rfl
  | succ fuel ih =>
      intro i h
      have h0 : Api.pollOnce (responses i) = Except.ok none := by
        simpa using h 0 (Nat.succ_pos fuel)
      rw [poll_job_go_retry_step responses i fuel h0]
      exact ih (i + 1) (fun j hj => by
        simpa [show i + 1 + j = i + (j + 1) by omega] using h (j + 1) (by omega))

/-- The loop's outcome depends only on the responses it can reach. -/
theorem poll_job_go_congr :
    ∀ (fuel i : Nat) (r1 r2 : Nat → Api.PollResponse),
      (∀ j, j < fuel → r1 (i + j) = r2 (i + j)) →
      Api.poll_job_go r1 i fuel = Api.poll_job_go r2 i fuel := by
  intro fuel
  induction fuel with
  | zero => intro i r1 r2 _; rfl
  | succ fuel ih =>
      intro i r1 r2 h
      have h0 : r1 i = r2 i := by simpa using h 0 (Nat.succ_pos fuel)
      have hrest : ∀ j, j < fuel → r1 (i + 1 + j) = r2 (i + 1 + j) := by
        intro j hj
        simpa [show i + 1 + j = i + (j + 1) by omega] using h (j + 1) (by omega)
      unfold Api.poll_job_go
      rw [h0]
      cases Api.pollOnce (r2 i) with
      | error e => rfl
      | ok o =>
          cases o with
          | some job => rfl
          | none => exact ih (i + 1) r1 r2 hrest

/-- C1: provided the first `k` responses all make the loop retry
(`pollOnce` yields a retry), the `k`-th response decides `poll_job`: a
successful payload whose normalized status is Completed ends the loop
returning the job data, Failed ends it with `JobFailed` carrying the
server's error message, any other normalized status — including
Unknown — and success payloads without job data make that attempt
retry; if every one of the 300 allowed attempts retries the loop fails
with `Timeout`, and the result never depends on responses beyond the
first 300 (at most 300 polls are issued, so the loop terminates). -/
theorem poll_job_spec (responses : Nat → Api.PollResponse) (k : Nat)
    (hk : k < Api.MAX_POLL_ATTEMPTS)
    (hpre : ∀ i, i < k → Api.pollOnce (responses i) = Except.ok none) :
    (∀ job, Api.pollOnce (responses k) = Except.ok (some job) →
        Api.poll_job responses = Except.ok job)
  ∧ (∀ e, Api.pollOnce (responses k) = Except.error e →
        Api.poll_job responses = Except.error e)
  ∧ (∀ jr job, (responses k).httpStatus ≠ 401 →
        (responses k).parsed = Except.ok jr → jr.success = true → jr.data = some job →
        ((Api.JobStatus.ofString job.status = Api.JobStatus.Completed →
            Api.poll_job responses = Except.ok job)
          ∧ (Api.JobStatus.ofString job.status = Api.JobStatus.Failed →
              Api.poll_job responses =
                Except.error (Api.ApiError.JobFailed (job.error.getD "Unknown error")))
          ∧ (Api.JobStatus.ofString job.status ≠ Api.JobStatus.Completed →
              Api.JobStatus.ofString job.status ≠ Api.JobStatus.Failed →
              Api.pollOnce (responses k) = Except.ok none)))
  ∧ (∀ jr, (responses k).httpStatus ≠ 401 →
        (responses k).parsed = Except.ok jr → jr.success = true → jr.data = none →
        Api.pollOnce (responses k) = Except.ok none)
  ∧ ((∀ i, i < Api.MAX_POLL_ATTEMPTS → Api.pollOnce (responses i) = Except.ok none) →
        Api.poll_job responses = Except.error Api.ApiError.Timeout)
  ∧ (∀ responses2 : Nat → Api.PollResponse,
        (∀ i, i < Api.MAX_POLL_ATTEMPTS → responses i = responses2 i) →
        Api.poll_job responses = Api.poll_job responses2) := by
  have hskip : Api.poll_job responses =
      Api.poll_job_go responses k (Api.MAX_POLL_ATTEMPTS - k) := by
    have := poll_job_go_retries responses k 0 Api.MAX_POLL_ATTEMPTS (le_of_lt hk)
      (fun j hj => by simpa using hpre j hj)
    simpa [Api.poll_job] using this
  obtain ⟨m, hm⟩ : ∃ m, Api.MAX_POLL_ATTEMPTS - k = m + 1 :=
    ⟨Api.MAX_POLL_ATTEMPTS - k - 1, by
      have : 0 < Api.MAX_POLL_ATTEMPTS - k := Nat.sub_pos_of_lt hk
      omega⟩
  refine ⟨?_, ?_, ?_, ?_, ?_, ?_⟩
  · intro job hres
    rw [hskip, hm]
    simp [Api.poll_job_go, hres]
  · intro e hres
    rw [hskip, hm]
    simp [Api.poll_job_go, hres]
  · intro jr job h401 hparsed hsucc hdata
    refine ⟨?_, ?_, ?_⟩
    · intro hst
      rw [hskip, hm]
      simp [Api.poll_job_go, Api.pollOnce, h401, hparsed, hsucc, hdata, hst]
    · intro hst
      rw [hskip, hm]
      simp [Api.poll_job_go, Api.pollOnce, h401, hparsed, hsucc, hdata, hst]
    · intro hnc hnf
      cases hst : Api.JobStatus.ofString job.status with
      | Completed => exact absurd hst hnc
      | Failed => exact absurd hst hnf
      | Queued => simp [Api.pollOnce, h401, hparsed, hsucc, hdata, hst]
      | Processing => simp [Api.pollOnce, h401, hparsed, hsucc, hdata, hst]
      | Unknown raw => simp [Api.pollOnce, h401, hparsed, hsucc, hdata, hst]
  · intro jr h401 hparsed hsucc hdata
    simp [Api.pollOnce, h401, hparsed, hsucc, hdata]
  · intro hall
    exact poll_job_go_all_retries responses Api.MAX_POLL_ATTEMPTS 0
      (fun j hj => by simpa using hall j hj)
  · intro responses2 hagree
    exact poll_job_go_congr Api.MAX_POLL_ATTEMPTS 0 responses responses2
      (fun j hj => by simpa using hagree j hj)

/-- C1 witness: a server that forever answers 200 with a successful
payload carrying no job data drives `poll_job` into `Timeout`. -/
theorem poll_job_spec_witness :
    Api.poll_job (fun _ => ⟨200, "", Except.ok ⟨true, none, none, none⟩⟩) =
      Except.error Api.ApiError.Timeout :=
  (poll_job_spec (fun _ => ⟨200, "", Except.ok ⟨true, none, none, none⟩⟩) 0
    (by norm_num [Api.MAX_POLL_ATTEMPTS])
    (fun i hi => absurd hi (Nat.not_lt_zero i))).2.2.2.2.1 (fun i _ => rfl)

/-- A path present after one `notifyStep` was either already pending
or is the processed path itself, which then passed every filter. -/
theorem mem_notifyStep (now : Nat) (pending : List (FsPath × Nat)) (path p : FsPath) (t : Nat)
    (h : (p, t) ∈ Watcher.notifyStep now pending path) :
    (p, t) ∈ pending ∨
      (p = path ∧ Watcher.is_pdf_file path = true
        ∧ Watcher.is_in_processed_folder path = false
        ∧ (path.fileName.getD "unknown").startsWith "." = false
        ∧ (path.fileName.getD "unknown").endsWith ".tmp" = false
        ∧ (path.fileName.getD "unknown").endsWith ".part" = false) := by
  by_cases h1 : Watcher.is_pdf_file path
  case neg =>
    left
    simpa [Watcher.notifyStep, Bool.not_eq_true] using
      (by simpa [Watcher.notifyStep, h1] using h : (p, t) ∈ pending)
  case pos =>
  by_cases h2 : Watcher.is_in_processed_folder path
  case pos =>
    left
    simpa [Watcher.notifyStep, h1, h2] using h
  case neg =>
  by_cases h3 : (path.fileName.getD "unknown").startsWith "."
  case pos =>
    left
    simpa [Watcher.notifyStep, h1, h2, h3] using h
  case neg =>
  by_cases h4 : (path.fileName.getD "unknown").endsWith ".tmp"
  case pos =>
    left
    simpa [Watcher.notifyStep, h1, h2, h3, h4] using h
  case neg =>
  by_cases h5 : (path.fileName.getD "unknown").endsWith ".part"
  case pos =>
    left
    simpa [Watcher.notifyStep, h1, h2, h3, h4, h5] using h
  case neg =>
    have h' : (p, t) = (path, now) ∨ (p, t) ∈ pending.filter (fun e => e.1 ≠ path) := by
      simpa [Watcher.notifyStep, h1, h2, h3, h4, h5] using h
    rcases h' with h' | h'
    · right
      refine ⟨congrArg Prod.fst h', by simpa using h1, by simpa using h2,
        by simpa using h3, by simpa using h4, by simpa using h5⟩
    · left
      exact (List.mem_filter.mp h').1

/-- Folding `notifyStep` over a path list only inserts paths of that
list, and only when they pass every filter. -/
theorem mem_foldl_notifyStep (now : Nat) (p : FsPath) (t : Nat) :
    ∀ (paths : List FsPath) (pending : List (FsPath × Nat)),
      (p, t) ∈ paths.foldl (Watcher.notifyStep now) pending →
      (∃ t0, (p, t0) ∈ pending) ∨
        (p ∈ paths ∧ Watcher.is_pdf_file p = true
          ∧ Watcher.is_in_processed_folder p = false
          ∧ (p.fileName.getD "unknown").startsWith "." = false
          ∧ (p.fileName.getD "unknown").endsWith ".tmp" = false
          ∧ (p.fileName.getD "unknown").endsWith ".part" = false) := by
  intro paths
  induction paths with
  | nil => intro pending h; exact Or.inl ⟨t, h⟩
  | cons a as ih =>
      intro pending h
      rcases ih (Watcher.notifyStep now pending a) h with ⟨t0, h0⟩ | ⟨hmem, hrest⟩
      · rcases mem_notifyStep now pending a p t0 h0 with h1 | ⟨rfl, hconds⟩
        · exact Or.inl ⟨t0, h1⟩
        · exact Or.inr ⟨List.mem_cons_self p as, hconds⟩
      · exact Or.inr ⟨List.mem_cons_of_mem a hmem, hrest⟩

/-- Every event emitted by the `pendingStep` fold comes from the ready
list. -/
theorem mem_foldl_pendingStep (folders : List (FsPath × Config.ToolConfig))
    (ev : Watcher.FileEvent) :
    ∀ (ready : List FsPath) (acc : List (FsPath × Nat) × List Watcher.FileEvent),
      ev ∈ (ready.foldl (Watcher.pendingStep folders) acc).2 →
      ev ∈ acc.2 ∨ ev.path ∈ ready := by
  intro ready
  induction ready with
  | nil => intro acc h; exact Or.inl h
  | cons a as ih =>
      intro acc h
      rcases ih (Watcher.pendingStep folders acc a) h with h0 | h0
      · have : ev ∈ acc.2 ∨ ev.path = a := by
          unfold Watcher.pendingStep at h0
          cases hfind : Watcher.find_watched_folder a folders with
          | some fc =>
              rw [hfind] at h0
              rcases List.mem_append.mp h0 with h1 | h1
              · exact Or.inl h1
              · rcases List.mem_singleton.mp h1 with rfl
                exact Or.inr rfl
          | none =>
              rw [hfind] at h0
              exact Or.inl h0
        rcases this with h1 | h1
        · exact Or.inl h1
        · exact Or.inr (h1 ▸ List.mem_cons_self a as)
      · exact Or.inr (List.mem_cons_of_mem a h0)

/-- C2: a raw notification inserts a path into the pending set only
when the event kind is create or modify, the path is among the event's
paths, its extension is case-insensitively pdf, no component equals
processed/originals case-insensitively, and its filename neither
starts with "." nor ends with ".tmp" or ".part"; and the debounce scan
only ever emits ready events for paths of the pending set, so a path
failing the filters is never promoted. -/
theorem notify_filter_spec (event : Watcher.NotifyEvent) (now : Nat)
    (pending : List (FsPath × Nat)) (p : FsPath) :
    ((∃ t, (p, t) ∈ Watcher.handle_notify_event event now pending) →
      (∃ t, (p, t) ∈ pending) ∨
        ((event.kind = Watcher.EventKind.create ∨ event.kind = Watcher.EventKind.modify)
          ∧ p ∈ event.paths
          ∧ Watcher.is_pdf_file p = true
          ∧ Watcher.is_in_processed_folder p = false
          ∧ (p.fileName.getD "unknown").startsWith "." = false
          ∧ (p.fileName.getD "unknown").endsWith ".tmp" = false
          ∧ (p.fileName.getD "unknown").endsWith ".part" = false))
  ∧ (∀ (snow debounce : Nat) (readable : FsPath → Bool)
        (folders : List (FsPath × Config.ToolConfig)) (pend : List (FsPath × Nat))
        (ev : Watcher.FileEvent),
      ev ∈ (Watcher.check_pending_files snow debounce readable folders pend).2 →
      ∃ t, (ev.path, t) ∈ pend) := by
  constructor
  · intro ⟨t, ht⟩
    cases hkind : event.kind with
    | create =>
        rw [Watcher.handle_notify_event, hkind] at ht
        rcases mem_foldl_notifyStep now p t event.paths pending ht with h | ⟨hmem, hconds⟩
        · exact Or.inl h
        · exact Or.inr ⟨Or.inl rfl, hmem, hconds⟩
    | modify =>
        rw [Watcher.handle_notify_event, hkind] at ht
        rcases mem_foldl_notifyStep now p t event.paths pending ht with h | ⟨hmem, hconds⟩
        · exact Or.inl h
        · exact Or.inr ⟨Or.inr rfl, hmem, hconds⟩
    | any => rw [Watcher.handle_notify_event, hkind] at ht; exact Or.inl ⟨t, ht⟩
    | access => rw [Watcher.handle_notify_event, hkind] at ht; exact Or.inl ⟨t, ht⟩
    | remove => rw [Watcher.handle_notify_event, hkind] at ht; exact Or.inl ⟨t, ht⟩
    | other => rw [Watcher.handle_notify_event, hkind] at ht; exact Or.inl ⟨t, ht⟩
  · intro snow debounce readable folders pend ev h
    have h' := mem_foldl_pendingStep folders ev
      ((pend.filter (fun e => debounce ≤ snow - e.2 && readable e.1)).map (fun e => e.1))
      (pend, []) (by simpa [Watcher.check_pending_files] using h)
    rcases h' with h0 | h0
    · exact absurd h0 (List.not_mem_nil ev)
    · rcases List.mem_map.mp h0 with ⟨e, he, hpe⟩
      refine ⟨e.2, ?_⟩
      rw [← hpe]
      simpa using List.mem_of_mem_filter he

/-- C2 witness: an event the debounce scan emits always names a path
of the pending map it scanned. -/
theorem notify_filter_spec_witness :
    ∃ t, ((⟨["w", "a.pdf"]⟩ : FsPath), t) ∈ [((⟨["w", "a.pdf"]⟩ : FsPath), 0)] :=
  (notify_filter_spec ⟨Watcher.EventKind.other, []⟩ 0 [] ⟨[]⟩).2 10 2 (fun _ => true)
    [(⟨["w"]⟩, ⟨"compress", true, some "/w", Config.OutputMode.Subfolder, []⟩)]
    [(⟨["w", "a.pdf"]⟩, 0)]
    ⟨⟨["w", "a.pdf"]⟩, "compress", ⟨"compress", true, some "/w", Config.OutputMode.Subfolder, []⟩⟩
    (by decide)

/-- The length accumulator of `osStrLen` never decreases. -/
theorem le_osStrLen_foldl :
    ∀ (cs : List String) (a : Nat), a ≤ cs.foldl (fun x c => x + 1 + c.length) a := by
  intro cs
  induction cs with
  | nil => intro a; exact le_refl a
  | cons c cs ih =>
      intro a
      rw [List.foldl_cons]
      exact le_trans (by omega) (ih (a + 1 + c.length))

/-- Every path's OS-string length is positive (the root is "/"). -/
theorem osStrLen_pos (p : FsPath) : 1 ≤ p.osStrLen := by
  unfold FsPath.osStrLen
  cases hc : p.components with
  | nil => exact le_refl 1
  | cons c cs =>
      show 1 ≤ List.foldl (fun a c => a + 1 + c.length) 0 (c :: cs)
      rw [List.foldl_cons]
      have := le_osStrLen_foldl cs (0 + 1 + c.length)
      omega

/-- Invariant of `find_watched_folder`'s fold: the tracked length is 0
exactly for the empty best match and otherwise the OS-string length of
a matching registered folder, the tracked length never decreases and
dominates the length of every matching entry seen, and the fold is the
identity when nothing matches. -/
theorem find_fold_invariant (file_path : FsPath) :
    ∀ (reg : List (FsPath × Config.ToolConfig))
      (acc : Option (FsPath × Config.ToolConfig) × Nat),
      (acc.1 = none → acc.2 = 0) →
      (∀ f c, acc.1 = some (f, c) →
        acc.2 = f.osStrLen ∧ file_path.starts_with f = true) →
      (((reg.foldl (Watcher.findFolderStep file_path) acc).1 = none →
          (reg.foldl (Watcher.findFolderStep file_path) acc).2 = 0)
        ∧ (∀ f c, (reg.foldl (Watcher.findFolderStep file_path) acc).1 = some (f, c) →
            (reg.foldl (Watcher.findFolderStep file_path) acc).2 = f.osStrLen
              ∧ file_path.starts_with f = true
              ∧ ((f, c) ∈ reg ∨ acc.1 = some (f, c)))
        ∧ (∀ e ∈ reg, file_path.starts_with e.1 = true →
            e.1.osStrLen ≤ (reg.foldl (Watcher.findFolderStep file_path) acc).2)
        ∧ acc.2 ≤ (reg.foldl (Watcher.findFolderStep file_path) acc).2
        ∧ ((∀ e ∈ reg, file_path.starts_with e.1 = false) →
            reg.foldl (Watcher.findFolderStep file_path) acc = acc)) := by
  intro reg
  induction reg with
  | nil =>
      intro acc h1 h2
      exact ⟨h1, fun f c h => ⟨(h2 f c h).1, (h2 f c h).2, Or.inr h⟩,
        by simp, le_refl _, fun _ => rfl⟩
  | cons e rest ih =>
      intro acc h1 h2
      rw [List.foldl_cons]
      by_cases hs : file_path.starts_with e.1 = true
      · by_cases hlt : acc.2 < e.1.osStrLen
        · have hstep : Watcher.findFolderStep file_path acc e = (some e, e.1.osStrLen) := by
            simp [Watcher.findFolderStep, hs, hlt]
          rw [hstep]
          have ih' := ih (some e, e.1.osStrLen)
            (fun h => absurd h (by simp))
            (fun f c h => by
              have : e = (f, c) := by simpa using h
              subst this
              exact ⟨rfl, hs⟩)
          refine ⟨ih'.1, ?_, ?_, ?_, ?_⟩
          · intro f c h
            rcases ih'.2.1 f c h with ⟨hl, hw, hm | hm⟩
            · exact ⟨hl, hw, Or.inl (List.mem_cons_of_mem e hm)⟩
            · have : e = (f, c) := by simpa using hm
              exact ⟨hl, hw, Or.inl (this ▸ List.mem_cons_self e rest)⟩
          · intro e' he' hw'
            rcases List.mem_cons.mp he' with rfl | he'
            · exact le_trans (le_refl _) ih'.2.2.2.1
            · exact ih'.2.2.1 e' he' hw'
          · exact le_trans (le_of_lt hlt) ih'.2.2.2.1
          · intro hall
            exact absurd (hall e (List.mem_cons_self e rest)) (by simp [hs])
        · have hstep : Watcher.findFolderStep file_path acc e = acc := by
            simp [Watcher.findFolderStep, hs, hlt]
          rw [hstep]
          have ih' := ih acc h1 h2
          refine ⟨ih'.1, ?_, ?_, ih'.2.2.2.1, ?_⟩
          · intro f c h
            rcases ih'.2.1 f c h with ⟨hl, hw, hm | hm⟩
            · exact ⟨hl, hw, Or.inl (List.mem_cons_of_mem e hm)⟩
            · exact ⟨hl, hw, Or.inr hm⟩
          · intro e' he' hw'
            rcases List.mem_cons.mp he' with rfl | he'
            · exact le_trans (Nat.le_of_not_lt hlt) ih'.2.2.2.1
            · exact ih'.2.2.1 e' he' hw'
          · intro hall
            exact absurd (hall e (List.mem_cons_self e rest)) (by simp [hs])
      · have hstep : Watcher.findFolderStep file_path acc e = acc := by
          simp [Watcher.findFolderStep, hs]
        rw [hstep]
        have ih' := ih acc h1 h2
        refine ⟨ih'.1, ?_, ?_, ih'.2.2.2.1, ?_⟩
        · intro f c h
          rcases ih'.2.1 f c h with ⟨hl, hw, hm | hm⟩
          · exact ⟨hl, hw, Or.inl (List.mem_cons_of_mem e hm)⟩
          · exact ⟨hl, hw, Or.inr hm⟩
        · intro e' he' hw'
          rcases List.mem_cons.mp he' with rfl | he'
          · exact absurd hw' hs
          · exact ih'.2.2.1 e' he' hw'
        · intro hall
          exact ih'.2.2.2.2 (fun e' he' => hall e' (List.mem_cons_of_mem e he'))

/-- C3: `find_watched_folder` returns no match exactly when no
registered folder's path is a component-wise prefix of the file path;
when it returns a match, that match is a registered entry whose folder
is a prefix of the file path and whose OS-string length dominates that
of every registered folder that is a prefix of the file path (the
longest, most specific folder wins). -/
theorem find_watched_folder_spec (file_path : FsPath)
    (reg : List (FsPath × Config.ToolConfig)) :
    ((Watcher.find_watched_folder file_path reg = none ↔
        ∀ e ∈ reg, file_path.starts_with e.1 = false))
  ∧ (∀ f c, Watcher.find_watched_folder file_path reg = some (f, c) →
      (f, c) ∈ reg ∧ file_path.starts_with f = true ∧
        ∀ e ∈ reg, file_path.starts_with e.1 = true → e.1.osStrLen ≤ f.osStrLen) := by
  have inv := find_fold_invariant file_path reg (none, 0)
    (fun _ => rfl) (fun f c h => by simp at h)
  constructor
  · constructor
    · intro hnone e he
      by_contra hw
      have hw' : file_path.starts_with e.1 = true := by
        simpa using hw
      have hle := inv.2.2.1 e he hw'
      have h0 := inv.1 (by simpa [Watcher.find_watched_folder] using hnone)
      have := osStrLen_pos e.1
      omega
    · intro hall
      have := inv.2.2.2.2 hall
      simp [Watcher.find_watched_folder, this]
  · intro f c h
    have h' : (reg.foldl (Watcher.findFolderStep file_path) (none, 0)).1 = some (f, c) := by
      simpa [Watcher.find_watched_folder] using h
    rcases inv.2.1 f c h' with ⟨hl, hw, hm | hm⟩
    · refine ⟨hm, hw, ?_⟩
      intro e he hw'
      have := inv.2.2.1 e he hw'
      omega
    · simp at hm

/-- C3 witness: with `/a` and `/a/b` registered, resolving
`/a/b/c.pdf` yields a registered prefix folder of maximal OS-string
length, namely `/a/b`. -/
theorem find_watched_folder_spec_witness :
    ((⟨["a", "b"]⟩ : FsPath),
        (⟨"t2", true, some "/a/b", Config.OutputMode.Subfolder, []⟩ : Config.ToolConfig)) ∈
      [((⟨["a"]⟩ : FsPath),
          (⟨"t1", true, some "/a", Config.OutputMode.Subfolder, []⟩ : Config.ToolConfig)),
       ((⟨["a", "b"]⟩ : FsPath),
          (⟨"t2", true, some "/a/b", Config.OutputMode.Subfolder, []⟩ : Config.ToolConfig))]
  ∧ FsPath.starts_with ⟨["a", "b", "c.pdf"]⟩ ⟨["a", "b"]⟩ = true := by
  have h := (find_watched_folder_spec ⟨["a", "b", "c.pdf"]⟩
    [((⟨["a"]⟩ : FsPath),
        (⟨"t1", true, some "/a", Config.OutputMode.Subfolder, []⟩ : Config.ToolConfig)),
     ((⟨["a", "b"]⟩ : FsPath),
        (⟨"t2", true, some "/a/b", Config.OutputMode.Subfolder, []⟩ : Config.ToolConfig))]).2
    ⟨["a", "b"]⟩ ⟨"t2", true, some "/a/b", Config.OutputMode.Subfolder, []⟩ (by decide)
  exact ⟨h.1, h.2.1⟩
